import Mathlib

/-!
# Verification of the fair-coin-flipper escrow program

A shallow embedding, in Lean 4, of the Solana/Anchor program
`programs/fair-coin-flipper/src/lib_FINAL.rs`: a two-party commit-reveal
coin-flip wagering escrow.  Public keys are modelled as natural numbers
(`Pubkey::default()` is `0`), 64-bit machine integers as `Nat` with explicit
reduction modulo `2^64` where the source's arithmetic can wrap, `i64`
timestamps as `Int`, byte arrays as `List Nat`, and the Solana `hash`
primitive as an executable SHA-256 over byte lists.  Each instruction
handler becomes a pure function from the game account (plus its clock and
signer inputs) to `Except GameError`, returning the updated account
together with the list of lamport transfers out of the escrow PDA that the
handler issues.
-/

set_option maxRecDepth 20000

/-! ## 64-bit and byte-level helpers -/

/-- `2^64`, the modulus of `u64` arithmetic. -/
def U64_MOD : Nat := 18446744073709551616

/-- `u64::MAX`. -/
def U64_MAX : Nat := 18446744073709551615

/-- Wrapping reduction of a natural number into `u64` range
(the behaviour of Rust's `wrapping_mul` / unchecked release-mode ops). -/
def wrap64 (n : Nat) : Nat := n % U64_MOD

/-- Wrapping `u64` subtraction `a - b` (two's complement), for `a b < 2^64`. -/
def sub64 (a b : Nat) : Nat := (a + (U64_MOD - b % U64_MOD)) % U64_MOD

/-- The `u64` value of an `i64`, as in Rust's `as u64` cast (two's complement). -/
def u64OfI64 (t : Int) : Nat := (t % (18446744073709551616 : Int)).toNat

/-- The eight little-endian bytes of a `u64`, as in `u64::to_le_bytes`. -/
def leBytes8 (n : Nat) : List Nat :=
  [n % 256, n / 256 % 256, n / 65536 % 256, n / 16777216 % 256,
   n / 4294967296 % 256, n / 1099511627776 % 256,
   n / 281474976710656 % 256, n / 72057594037927936 % 256]

/-- The `u64` read little-endian from the first eight bytes of a byte list,
as in `u64::from_le_bytes([bytes[0], .., bytes[7]])`. -/
def leU64 (bs : List Nat) : Nat :=
  bs.getD 0 0 + 256 * bs.getD 1 0 + 65536 * bs.getD 2 0 +
  16777216 * bs.getD 3 0 + 4294967296 * bs.getD 4 0 +
  1099511627776 * bs.getD 5 0 + 281474976710656 * bs.getD 6 0 +
  72057594037927936 * bs.getD 7 0

/-! ## SHA-256

The Solana `anchor_lang::solana_program::hash::hash` primitive is SHA-256.
We embed it executably over `List Nat` bytes (32-bit words as `Nat` with
explicit reduction modulo `2^32`). -/

/-- `2^32`, the modulus of the 32-bit word arithmetic inside SHA-256. -/
def U32_MOD : Nat := 4294967296

/-- Right rotation of a 32-bit word. -/
def rotr32 (x n : Nat) : Nat :=
  ((x >>> n) ||| (x <<< (32 - n))) % U32_MOD

/-- The 64 SHA-256 round constants. -/
def shaK : List Nat :=
  [1116352408, 1899447441, 3049323471, 3921009573, 961987163,
   1508970993, 2453635748, 2870763221, 3624381080, 310598401,
   607225278, 1426881987, 1925078388, 2162078206, 2614888103,
   3248222580, 3835390401, 4022224774, 264347078, 604807628,
   770255983, 1249150122, 1555081692, 1996064986, 2554220882,
   2821834349, 2952996808, 3210313671, 3336571891, 3584528711,
   113926993, 338241895, 666307205, 773529912, 1294757372,
   1396182291, 1695183700, 1986661051, 2177026350, 2456956037,
   2730485921, 2820302411, 3259730800, 3345764771, 3516065817,
   3600352804, 4094571909, 275423344, 430227734, 506948616,
   659060556, 883997877, 958139571, 1322822218, 1537002063,
   1747873779, 1955562222, 2024104815, 2227730452, 2361852424,
   2428436474, 2756734187, 3204031479, 3329325298]

/-- The SHA-256 initial hash state. -/
def shaH0 : List Nat :=
  [1779033703, 3144134277, 1013904242, 2773480762, 1359893119,
   2600822924, 528734635, 1541459225]

/-- Group bytes into big-endian 32-bit words. -/
def bytesToWordsBE : List Nat → List Nat
  | b1 :: b2 :: b3 :: b4 :: rest =>
      (((b1 * 256 + b2) * 256 + b3) * 256 + b4) :: bytesToWordsBE rest
  | _ => []

/-- The four big-endian bytes of a 32-bit word. -/
def wordToBytesBE (w : Nat) : List Nat :=
  [w / 16777216 % 256, w / 65536 % 256, w / 256 % 256, w % 256]

/-- The eight big-endian bytes of a 64-bit length field. -/
def beBytes8 (n : Nat) : List Nat :=
  [n / 72057594037927936 % 256, n / 281474976710656 % 256,
   n / 1099511627776 % 256, n / 4294967296 % 256,
   n / 16777216 % 256, n / 65536 % 256, n / 256 % 256, n % 256]

/-- SHA-256 message padding: `0x80`, zeros to 56 mod 64, 64-bit bit length. -/
def shaPad (msg : List Nat) : List Nat :=
  let len := msg.length
  let zeros := (120 - (len + 1) % 64) % 64
  msg ++ [0x80] ++ List.replicate zeros 0 ++ beBytes8 (len * 8)

/-- SHA-256 message-schedule sigma-0. -/
def smallSigma0 (x : Nat) : Nat := rotr32 x 7 ^^^ rotr32 x 18 ^^^ (x >>> 3)

/-- SHA-256 message-schedule sigma-1. -/
def smallSigma1 (x : Nat) : Nat := rotr32 x 17 ^^^ rotr32 x 19 ^^^ (x >>> 10)

/-- SHA-256 round function Sigma-0. -/
def bigSigma0 (x : Nat) : Nat := rotr32 x 2 ^^^ rotr32 x 13 ^^^ rotr32 x 22

/-- SHA-256 round function Sigma-1. -/
def bigSigma1 (x : Nat) : Nat := rotr32 x 6 ^^^ rotr32 x 11 ^^^ rotr32 x 25

/-- Extend the 16-word schedule by the given number of further words. -/
def schedExtend : Nat → List Nat → List Nat
  | 0, w => w
  | n + 1, w =>
    let i := w.length
    let nw := (w.getD (i - 16) 0 + smallSigma0 (w.getD (i - 15) 0) +
               w.getD (i - 7) 0 + smallSigma1 (w.getD (i - 2) 0)) % U32_MOD
    schedExtend n (w ++ [nw])

/-- One SHA-256 compression round on the eight-word working state. -/
def shaRound (st : List Nat) (ki wi : Nat) : List Nat :=
  match st with
  | [a, b, c, d, e, f, g, h] =>
    let ch := (e &&& f) ^^^ ((U32_MOD - 1 - e) &&& g)
    let maj := (a &&& b) ^^^ (a &&& c) ^^^ (b &&& c)
    let t1 := (h + bigSigma1 e + ch + ki + wi) % U32_MOD
    let t2 := (bigSigma0 a + maj) % U32_MOD
    [(t1 + t2) % U32_MOD, a, b, c, (d + t1) % U32_MOD, e, f, g]
  | s => s

/-- Run the 64 compression rounds over the constants and the schedule. -/
def shaRounds : Nat → List Nat → List Nat → List Nat → List Nat
  | 0, _, _, st => st
  | n + 1, k :: ks, w :: ws, st => shaRounds n ks ws (shaRound st k w)
  | _ + 1, _, _, st => st

/-- Compress one 64-byte block into the chaining state. -/
def shaCompress (h : List Nat) (block : List Nat) : List Nat :=
  let w := schedExtend 48 (bytesToWordsBE block)
  let st := shaRounds 64 shaK w h
  (h.zip st).map (fun p => (p.1 + p.2) % U32_MOD)

/-- Fold the compression over successive 64-byte blocks (fuel-indexed). -/
def shaBlocks : Nat → List Nat → List Nat → List Nat
  | 0, h, _ => h
  | _ + 1, h, [] => h
  | fuel + 1, h, data => shaBlocks fuel (shaCompress h (data.take 64)) (data.drop 64)

/-- SHA-256 of a byte list, producing the 32 digest bytes. -/
def sha256 (msg : List Nat) : List Nat :=
  let padded := shaPad msg
  let hfin := shaBlocks padded.length shaH0 padded
  (hfin.map wordToBytesBE).flatten

/-! ## Data model

Mirrors the `Game` account, `GameStatus`, `CoinSide` and `GameError` of the
source.  The PDA bump fields only feed account-address derivation (a platform
concern with no program logic) and are omitted. -/

/-- The two sides of the coin (`enum CoinSide`). -/
inductive CoinSide where
  | Heads
  | Tails
deriving DecidableEq

/-- The game lifecycle status (`enum GameStatus`). -/
inductive GameStatus where
  | WaitingForPlayer
  | PlayersReady
  | CommitmentsReady
  | RevealingPhase
  | Resolved
  | Cancelled
deriving DecidableEq

/-- The program's error codes (`enum GameError`). -/
inductive GameError where
  | BetTooLow
  | BetTooHigh
  | InvalidGameStatus
  | NotAPlayer
  | InvalidCommitment
  | AlreadyRevealed
  | AlreadyCommitted
  | WeakSecret
  | NotReadyForResolution
  | AlreadyResolved
  | TooEarlyToCancel
  | CannotPlayAgainstYourself
deriving DecidableEq

/-- The per-game account state (`struct Game`). -/
structure Game where
  game_id : Nat
  player_a : Nat
  player_b : Nat
  bet_amount : Nat
  house_wallet : Nat
  commitment_a : List Nat
  commitment_b : List Nat
  commitments_complete : Bool
  choice_a : Option CoinSide
  secret_a : Option Nat
  choice_b : Option CoinSide
  secret_b : Option Nat
  status : GameStatus
  coin_result : Option CoinSide
  winner : Option Nat
  house_fee : Nat
  created_at : Int
  resolved_at : Option Int
deriving DecidableEq

/-- A lamport transfer out of the escrow PDA: recipient and amount. -/
abbrev Transfer := Nat × Nat

/-- Decidable equality for handler results, so concrete runs can be checked
by `decide`. -/
instance {e a : Type} [DecidableEq e] [DecidableEq a] : DecidableEq (Except e a) := fun x y =>
  match x, y with
  | .error e1, .error e2 =>
      if h : e1 = e2 then isTrue (by rw [h]) else isFalse (fun hc => h (Except.error.inj hc))
  | .ok a1, .ok a2 =>
      if h : a1 = a2 then isTrue (by rw [h]) else isFalse (fun hc => h (Except.ok.inj hc))
  | .error _, .ok _ => isFalse (fun hc => Except.noConfusion hc)
  | .ok _, .error _ => isFalse (fun hc => Except.noConfusion hc)

/-! ## Program constants -/

/-- `HOUSE_FEE_PERCENTAGE`: 700 basis points (7%). -/
def HOUSE_FEE_PERCENTAGE : Nat := 700

/-- `CANCELLATION_FEE_PERCENTAGE`: 200 basis points (2%). -/
def CANCELLATION_FEE_PERCENTAGE : Nat := 200

/-- `MIN_BET_AMOUNT`: 0.01 SOL in lamports. -/
def MIN_BET_AMOUNT : Nat := 10000000

/-- `MAX_BET_AMOUNT`: 100 SOL in lamports. -/
def MAX_BET_AMOUNT : Nat := 100000000000

/-- `Pubkey::default()`, the all-zero key marking an unset player B. -/
def PUBKEY_DEFAULT : Nat := 0

/-- The all-zero 32-byte array `[0; 32]` used as the unset-commitment sentinel. -/
def zero32 : List Nat := List.replicate 32 0

/-! ## Commitment engine and randomness resolver (pure functions) -/

/-- `generate_commitment`: the commitment digest of a (choice, secret) pair —
a choice byte, seven padding zero bytes, the eight little-endian secret
bytes, passed through double SHA-256. -/
def generate_commitment (choice : CoinSide) (secret : Nat) : List Nat :=
  let choice_byte : Nat := match choice with | .Heads => 0 | .Tails => 1
  let commitment_data := [choice_byte] ++ List.replicate 7 0 ++ leBytes8 secret
  sha256 (sha256 commitment_data)

/-- The 24-byte entropy input of `generate_coin_flip`: the wrapping product
of the two secrets, the slot, and the timestamp cast to `u64`, each as eight
little-endian bytes. -/
def coin_entropy_data (secret_a secret_b slot : Nat) (timestamp : Int) : List Nat :=
  leBytes8 (wrap64 (secret_a * secret_b)) ++ leBytes8 slot ++ leBytes8 (u64OfI64 timestamp)

/-- `generate_coin_flip`: double SHA-256 of the combined entropy; the low
bit of the first eight digest bytes (read little-endian) picks the side. -/
def generate_coin_flip (secret_a secret_b slot : Nat) (timestamp : Int) : CoinSide :=
  let hash_bytes := sha256 (sha256 (coin_entropy_data secret_a secret_b slot timestamp))
  let random_value := leU64 hash_bytes
  if random_value % 2 = 0 then .Heads else .Tails

/-- The 16-byte tiebreaker input of `determine_winner`:
`entropy_mix = secret_a.wrapping_mul(secret_b).wrapping_add(slot)` followed by
the slot, each as eight little-endian bytes. -/
def tiebreaker_data (secret_a secret_b slot : Nat) : List Nat :=
  leBytes8 (wrap64 (wrap64 (secret_a * secret_b) + slot)) ++ leBytes8 slot

/-- The tie branch of `determine_winner`: a single SHA-256 of the tiebreaker
input; the low bit of its first eight bytes picks player A or player B. -/
def tiebreak_winner (secret_a secret_b slot player_a player_b : Nat) : Nat :=
  let tiebreaker_value := leU64 (sha256 (tiebreaker_data secret_a secret_b slot))
  if tiebreaker_value % 2 = 0 then player_a else player_b

/-- `determine_winner`: the player whose choice alone matches the coin wins;
on a tie (both match or neither), the cryptographic tiebreaker decides. -/
def determine_winner (choice_a choice_b coin_result : CoinSide)
    (secret_a secret_b slot player_a player_b : Nat) : Nat :=
  match decide (choice_a = coin_result), decide (choice_b = coin_result) with
  | true, false => player_a
  | false, true => player_b
  | _, _ => tiebreak_winner secret_a secret_b slot player_a player_b

/-- The payout computation shared by `reveal_choice` auto-resolution and
`resolve_game_manual`: `total_pot = bet_amount * 2`,
`house_fee = total_pot * HOUSE_FEE_PERCENTAGE / 10000`,
`winner_payout = total_pot - house_fee`, at `u64` width. -/
def resolution_payouts (bet_amount : Nat) : Nat × Nat × Nat :=
  let total_pot := wrap64 (bet_amount * 2)
  let house_fee := wrap64 (total_pot * HOUSE_FEE_PERCENTAGE) / 10000
  let winner_payout := sub64 total_pot house_fee
  (total_pot, house_fee, winner_payout)

/-! ## Instruction handlers -/

/-- `create_game`: validates the bet bounds and initialises the game account;
the caller escrows `bet_amount`. -/
def create_game (game_id player_a house_wallet bet_amount : Nat) (now : Int) :
    Except GameError Game :=
  if bet_amount < MIN_BET_AMOUNT then .error .BetTooLow
  else if MAX_BET_AMOUNT < bet_amount then .error .BetTooHigh
  else .ok {
    game_id := game_id
    player_a := player_a
    player_b := PUBKEY_DEFAULT
    bet_amount := bet_amount
    house_wallet := house_wallet
    commitment_a := zero32
    commitment_b := zero32
    commitments_complete := false
    choice_a := none
    secret_a := none
    choice_b := none
    secret_b := none
    status := .WaitingForPlayer
    coin_result := none
    winner := none
    house_fee := 0
    created_at := now
    resolved_at := none }

/-- `join_game`: only from `WaitingForPlayer`, rejects self-play; player B
escrows the matching bet. -/
def join_game (g : Game) (player_b : Nat) : Except GameError Game :=
  if ¬ g.status = GameStatus.WaitingForPlayer then .error .InvalidGameStatus
  else if player_b = g.player_a then .error .CannotPlayAgainstYourself
  else .ok { g with player_b := player_b, status := .PlayersReady }

/-- After a commitment is stored: if both slots are now non-zero, mark the
commitments complete and move to `CommitmentsReady`. -/
def finishCommitPhase (g : Game) : Game :=
  if ¬ g.commitment_a = zero32 ∧ ¬ g.commitment_b = zero32 then
    { g with commitments_complete := true, status := .CommitmentsReady }
  else g

/-- `make_commitment`: phase check, zero-digest check, participant check,
write-once store of the caller's commitment. -/
def make_commitment (g : Game) (player : Nat) (c : List Nat) : Except GameError Game :=
  if ¬ (g.status = GameStatus.PlayersReady ∨ g.status = GameStatus.CommitmentsReady) then
    .error .InvalidGameStatus
  else if c = zero32 then .error .InvalidCommitment
  else if ¬ (player = g.player_a ∨ player = g.player_b) then .error .NotAPlayer
  else if player = g.player_a then
    if ¬ g.commitment_a = zero32 then .error .AlreadyCommitted
    else .ok (finishCommitPhase { g with commitment_a := c })
  else
    if ¬ g.commitment_b = zero32 then .error .AlreadyCommitted
    else .ok (finishCommitPhase { g with commitment_b := c })

/-- The auto-resolution block of `reveal_choice` (also the body of
`resolve_game_manual`): when both revelations are present, compute the coin
flip, the winner and the payouts, mark the game `Resolved`, and transfer the
winner payout and the house fee out of escrow.  The source's `.unwrap()`
calls on the stored secrets become `getD`; the default is never reached on
states that store a choice only together with its secret. -/
def autoResolve (g : Game) (slot : Nat) (now : Int) :
    Except GameError (Game × List Transfer) :=
  if g.choice_a.isSome = true ∧ g.choice_b.isSome = true then
    let choice_a := g.choice_a.getD CoinSide.Heads
    let secret_a := g.secret_a.getD 0
    let choice_b := g.choice_b.getD CoinSide.Heads
    let secret_b := g.secret_b.getD 0
    let coin_result := generate_coin_flip secret_a secret_b slot now
    let winner := determine_winner choice_a choice_b coin_result secret_a secret_b slot
                    g.player_a g.player_b
    let p := resolution_payouts g.bet_amount
    let g' := { g with coin_result := some coin_result, winner := some winner,
                       house_fee := p.2.1, status := GameStatus.Resolved,
                       resolved_at := some now }
    let winner_key := if winner = g.player_a then g.player_a else g.player_b
    .ok (g', [(winner_key, p.2.2), (g.house_wallet, p.2.1)])
  else .ok (g, [])

/-- `reveal_choice`: phase and participation checks, secret-strength checks,
commitment verification, write-once store of the revelation, then inline
auto-resolution once both revelations exist. -/
def reveal_choice (g : Game) (player : Nat) (choice : CoinSide) (secret : Nat)
    (slot : Nat) (now : Int) : Except GameError (Game × List Transfer) :=
  if ¬ (g.status = GameStatus.CommitmentsReady ∨ g.status = GameStatus.RevealingPhase) then
    .error .InvalidGameStatus
  else if ¬ g.commitments_complete = true then .error .InvalidGameStatus
  else if ¬ (player = g.player_a ∨ player = g.player_b) then .error .NotAPlayer
  else if secret ≤ 1 then .error .WeakSecret
  else if secret = U64_MAX then .error .WeakSecret
  else if ¬ generate_commitment choice secret =
           (if player = g.player_a then g.commitment_a else g.commitment_b) then
    .error .InvalidCommitment
  else if player = g.player_a then
    if g.choice_a.isSome then .error .AlreadyRevealed
    else autoResolve { g with choice_a := some choice, secret_a := some secret,
                              status := .RevealingPhase } slot now
  else
    if g.choice_b.isSome then .error .AlreadyRevealed
    else autoResolve { g with choice_b := some choice, secret_b := some secret,
                              status := .RevealingPhase } slot now

/-- `resolve_game_manual`: fallback resolution; requires both revelations and
an unresolved game, then runs the same resolution block. -/
def resolve_game_manual (g : Game) (slot : Nat) (now : Int) :
    Except GameError (Game × List Transfer) :=
  if ¬ (g.choice_a.isSome = true ∧ g.choice_b.isSome = true) then .error .NotReadyForResolution
  else if g.status = GameStatus.Resolved then .error .AlreadyResolved
  else autoResolve g slot now

/-- The cancellation fee computation of `cancel_game`:
`cancellation_fee = bet_amount * CANCELLATION_FEE_PERCENTAGE / 10000`,
`refund_amount = bet_amount - cancellation_fee`, at `u64` width. -/
def cancel_fees (bet_amount : Nat) : Nat × Nat :=
  let cancellation_fee := wrap64 (bet_amount * CANCELLATION_FEE_PERCENTAGE) / 10000
  let refund_amount := sub64 bet_amount cancellation_fee
  (cancellation_fee, refund_amount)

/-- The refund branching of `cancel_game`: a game still `WaitingForPlayer`
refunds only player A (minus the fee); otherwise, when player B is set, both
players are refunded and the house collects both fees; otherwise nothing is
transferred. -/
def cancel_transfers (g : Game) : List Transfer :=
  let f := cancel_fees g.bet_amount
  if g.status = GameStatus.WaitingForPlayer then
    [(g.player_a, f.2), (g.house_wallet, f.1)]
  else if ¬ g.player_b = PUBKEY_DEFAULT then
    [(g.player_a, f.2), (g.player_b, f.2), (g.house_wallet, wrap64 (f.1 * 2))]
  else []

/-- `cancel_game`: allowed only more than 3600 seconds after creation and only
while not `Resolved`; refunds whoever funded the escrow minus a 2% fee per
funded player, the fees going to the house, and marks the game `Cancelled`.
The `i64` subtraction `now - created_at` is modelled exactly over `Int`. -/
def cancel_game (g : Game) (now : Int) : Except GameError (Game × List Transfer) :=
  if ¬ (3600 : Int) < now - g.created_at then .error .TooEarlyToCancel
  else if g.status = GameStatus.Resolved then .error .AlreadyResolved
  else .ok ({ g with status := .Cancelled }, cancel_transfers g)

/-! ## Reachable game states

The per-game transition system: a state is reachable when it arises from a
`create_game` followed by any sequence of successful handler calls (the
hosting environment serialises the calls on one game). -/

/-- Reachability of a game-account state under the program's handlers. -/
inductive Reach : Game → Prop where
  | created : ∀ game_id player_a house_wallet bet_amount now g,
      create_game game_id player_a house_wallet bet_amount now = .ok g → Reach g
  | joined : ∀ g player_b g', Reach g → join_game g player_b = .ok g' → Reach g'
  | committed : ∀ g player c g', Reach g → make_commitment g player c = .ok g' → Reach g'
  | revealed : ∀ g player choice secret slot now g' ts, Reach g →
      reveal_choice g player choice secret slot now = .ok (g', ts) → Reach g'
  | resolvedManually : ∀ g slot now g' ts, Reach g →
      resolve_game_manual g slot now = .ok (g', ts) → Reach g'
  | cancelled : ∀ g now g' ts, Reach g → cancel_game g now = .ok (g', ts) → Reach g'

/-- The inductive invariant of reachable states: secrets accompany choices,
stored secrets are strong, and a game with both revelations is `Resolved`. -/
def GoodGame (g : Game) : Prop :=
  (g.choice_a.isSome = true → g.secret_a.isSome = true) ∧
  (g.choice_b.isSome = true → g.secret_b.isSome = true) ∧
  (∀ s, g.secret_a = some s → 1 < s ∧ ¬ s = U64_MAX) ∧
  (∀ s, g.secret_b = some s → 1 < s ∧ ¬ s = U64_MAX) ∧
  (g.choice_a.isSome = true → g.choice_b.isSome = true → g.status = GameStatus.Resolved)

/-! ## Overflow-checked arithmetic

Modelled from the spec: the repository's build profile (its `Cargo.toml`,
which fixes whether Rust's `*`, `-` and `/` operators trap on overflow) is
not among the sources; the spec states that all arithmetic in the payout,
fee, refund and elapsed-time computations is overflow-checked, any overflow
or underflow aborting the operation with no partial effect.  Each operation
is therefore modelled as checked: it yields its exact mathematical result
when that result is representable and aborts (`none`) otherwise. -/

/-- Checked `u64` multiplication. -/
def checkedMul64 (a b : Nat) : Option Nat :=
  if a * b < U64_MOD then some (a * b) else none

/-- Checked `u64` subtraction. -/
def checkedSub64 (a b : Nat) : Option Nat :=
  if b ≤ a then some (a - b) else none

/-- Checked `i64` subtraction. -/
def checkedSubI64 (a b : Int) : Option Int :=
  if -(9223372036854775808 : Int) ≤ a - b ∧ a - b < 9223372036854775808 then
    some (a - b)
  else none

/-- The payout computation `2 × bet`, `pot × feeBps / 10000`, `pot − fee`
with every operation overflow-checked. -/
def payoutsChecked (bet : Nat) : Option (Nat × Nat × Nat) := do
  let pot ← checkedMul64 bet 2
  let num ← checkedMul64 pot HOUSE_FEE_PERCENTAGE
  let fee := num / 10000
  let pay ← checkedSub64 pot fee
  pure (pot, fee, pay)

/-- The cancellation computation `bet × cancelBps / 10000`, `bet − fee`
with every operation overflow-checked. -/
def cancelFeesChecked (bet : Nat) : Option (Nat × Nat) := do
  let num ← checkedMul64 bet CANCELLATION_FEE_PERCENTAGE
  let fee := num / 10000
  let refund ← checkedSub64 bet fee
  pure (fee, refund)

/-- The elapsed-time computation `now − createdAt` with the `i64`
subtraction overflow-checked. -/
def elapsedChecked (now created_at : Int) : Option Int :=
  checkedSubI64 now created_at

/-! ## A concrete execution

A full game between player 1 (betting Heads with secret 5) and player 2
(betting Tails with secret 6), bet 10000000 lamports, house wallet 9,
created at time 0, revealed at slot 10 / time 100; and, branching off after
the first revelation, a cancellation at time 4000.  These states witness the
reachability hypotheses of the claims. -/

/-- The game account as `create_game 7 1 9 10000000 0` initialises it. -/
def exG0 : Game := {
  game_id := 7, player_a := 1, player_b := PUBKEY_DEFAULT, bet_amount := 10000000,
  house_wallet := 9, commitment_a := zero32, commitment_b := zero32,
  commitments_complete := false, choice_a := none, secret_a := none,
  choice_b := none, secret_b := none, status := .WaitingForPlayer,
  coin_result := none, winner := none, house_fee := 0,
  created_at := 0, resolved_at := none }

/-- After player 2 joins. -/
def exG1 : Game := { exG0 with player_b := 2, status := .PlayersReady }

/-- Player 1's commitment digest. -/
def exCommitA : List Nat := generate_commitment .Heads 5

/-- Player 2's commitment digest. -/
def exCommitB : List Nat := generate_commitment .Tails 6

/-- After player 1 commits. -/
def exG2 : Game := { exG1 with commitment_a := exCommitA }

/-- After player 2 commits (both slots full: commitments complete). -/
def exG3 : Game := { exG2 with
  commitment_b := exCommitB
  commitments_complete := true
  status := .CommitmentsReady }

/-- After player 1 reveals. -/
def exG4 : Game := { exG3 with
  choice_a := some .Heads
  secret_a := some 5
  status := .RevealingPhase }

/-- The slot at resolution time. -/
def exSlot : Nat := 10

/-- The timestamp at resolution time. -/
def exTime : Int := 100

/-- The coin outcome of the concrete game. -/
def exCoin : CoinSide := generate_coin_flip 5 6 exSlot exTime

/-- The winner of the concrete game. -/
def exWinner : Nat := determine_winner .Heads .Tails exCoin 5 6 exSlot 1 2

/-- After player 2 reveals: auto-resolved. -/
def exG5 : Game := { exG4 with
  choice_b := some .Tails
  secret_b := some 6
  status := .Resolved
  coin_result := some exCoin
  winner := some exWinner
  house_fee := 1400000
  resolved_at := some exTime }

/-- The transfers issued by the resolving reveal. -/
def exTransfers : List Transfer := [(if exWinner = 1 then 1 else 2, 18600000), (9, 1400000)]

/-- The state after cancelling the game from `exG4` at time 4000. -/
def exCancelled : Game := { exG4 with status := .Cancelled }

/-- The refund transfers issued by a cancellation of this game once both
players have funded: 2% of the bet withheld from each refund, both fees to
the house. -/
def exCancelTransfers : List Transfer := [(1, 9800000), (2, 9800000), (9, 400000)]

/-- A game state holding both revelations while not yet `Resolved`, as the
manual-resolution fallback expects to find one. -/
def exBothRevealed : Game := { exG4 with
  choice_b := some .Tails
  secret_b := some 6 }

/-! ## Helper lemmas -/

theorem wrap64_eq_of_lt {n : Nat} (h : n < U64_MOD) : wrap64 n = n :=
  Nat.mod_eq_of_lt h

theorem sub64_eq {a b : Nat} (hb : b ≤ a) (ha : a < U64_MOD) : sub64 a b = a - b := by
  simp only [sub64, U64_MOD] at *
  omega

theorem mulDiv_le (x a b : Nat) (hab : a ≤ b) (hb : 0 < b) : x * a / b ≤ x :=
  calc x * a / b ≤ x * b / b := Nat.div_le_div_right (Nat.mul_le_mul_left x hab)
    _ = x := Nat.mul_div_cancel x hb

theorem finishCommit_fields (g : Game) :
    (finishCommitPhase g).choice_a = g.choice_a ∧
    (finishCommitPhase g).choice_b = g.choice_b ∧
    (finishCommitPhase g).secret_a = g.secret_a ∧
    (finishCommitPhase g).secret_b = g.secret_b := by
  unfold finishCommitPhase
  split <;> exact ⟨rfl, rfl, rfl, rfl⟩

theorem create_ok {gid pa hw b : Nat} {now : Int} {g : Game}
    (h : create_game gid pa hw b now = .ok g) :
    g.choice_a = none ∧ g.choice_b = none ∧ g.secret_a = none ∧ g.secret_b = none := by
  unfold create_game at h
  split at h
  · exact Except.noConfusion h
  split at h
  · exact Except.noConfusion h
  simp only [Except.ok.injEq] at h
  subst h
  exact ⟨rfl, rfl, rfl, rfl⟩

theorem join_ok {g : Game} {pb : Nat} {g' : Game} (h : join_game g pb = .ok g') :
    g.status = GameStatus.WaitingForPlayer ∧
    g'.choice_a = g.choice_a ∧ g'.choice_b = g.choice_b ∧
    g'.secret_a = g.secret_a ∧ g'.secret_b = g.secret_b := by
  unfold join_game at h
  split at h
  · exact Except.noConfusion h
  case isFalse hst =>
    split at h
    · exact Except.noConfusion h
    simp only [Except.ok.injEq] at h
    subst h
    exact ⟨not_not.mp hst, rfl, rfl, rfl, rfl⟩

theorem mk_ok {g : Game} {p : Nat} {c : List Nat} {g' : Game}
    (h : make_commitment g p c = .ok g') :
    (g.status = GameStatus.PlayersReady ∨ g.status = GameStatus.CommitmentsReady) ∧
    g'.choice_a = g.choice_a ∧ g'.choice_b = g.choice_b ∧
    g'.secret_a = g.secret_a ∧ g'.secret_b = g.secret_b := by
  unfold make_commitment at h
  split at h
  · exact Except.noConfusion h
  case isFalse hst =>
    split at h
    · exact Except.noConfusion h
    split at h
    · exact Except.noConfusion h
    split at h
    · split at h
      · exact Except.noConfusion h
      simp only [Except.ok.injEq] at h
      subst h
      obtain ⟨h1, h2, h3, h4⟩ := finishCommit_fields { g with commitment_a := c }
      exact ⟨not_not.mp hst, h1, h2, h3, h4⟩
    · split at h
      · exact Except.noConfusion h
      simp only [Except.ok.injEq] at h
      subst h
      obtain ⟨h1, h2, h3, h4⟩ := finishCommit_fields { g with commitment_b := c }
      exact ⟨not_not.mp hst, h1, h2, h3, h4⟩

theorem autoResolve_ok {g : Game} {sl : Nat} {t : Int} {g' : Game} {ts : List Transfer}
    (h : autoResolve g sl t = .ok (g', ts)) :
    g'.choice_a = g.choice_a ∧ g'.secret_a = g.secret_a ∧
    g'.choice_b = g.choice_b ∧ g'.secret_b = g.secret_b ∧
    ((g.choice_a.isSome = true ∧ g.choice_b.isSome = true) →
      g'.status = GameStatus.Resolved) ∧
    (¬ (g.choice_a.isSome = true ∧ g.choice_b.isSome = true) → g' = g) := by
  unfold autoResolve at h
  split at h
  case isTrue hc =>
    simp only [Except.ok.injEq, Prod.mk.injEq] at h
    obtain ⟨hg, -⟩ := h
    subst hg
    exact ⟨rfl, rfl, rfl, rfl, fun _ => rfl, fun hn => absurd hc hn⟩
  case isFalse hc =>
    simp only [Except.ok.injEq, Prod.mk.injEq] at h
    obtain ⟨hg, -⟩ := h
    subst hg
    exact ⟨rfl, rfl, rfl, rfl, fun hcon => absurd hcon hc, fun _ => rfl⟩

theorem reveal_ok {g : Game} {p : Nat} {c : CoinSide} {s sl : Nat} {t : Int}
    {g' : Game} {ts : List Transfer}
    (h : reveal_choice g p c s sl t = .ok (g', ts)) :
    (g.status = GameStatus.CommitmentsReady ∨ g.status = GameStatus.RevealingPhase) ∧
    1 < s ∧ ¬ s = U64_MAX ∧
    ((p = g.player_a ∧ g.choice_a = none ∧
        g'.choice_a = some c ∧ g'.secret_a = some s ∧
        g'.choice_b = g.choice_b ∧ g'.secret_b = g.secret_b) ∨
     (¬ p = g.player_a ∧ g.choice_b = none ∧
        g'.choice_b = some c ∧ g'.secret_b = some s ∧
        g'.choice_a = g.choice_a ∧ g'.secret_a = g.secret_a)) ∧
    ((g'.choice_a.isSome = true ∧ g'.choice_b.isSome = true) →
      g'.status = GameStatus.Resolved) := by
  unfold reveal_choice at h
  by_cases hst : g.status = GameStatus.CommitmentsReady ∨ g.status = GameStatus.RevealingPhase
  case neg => rw [if_pos hst] at h; exact Except.noConfusion h
  rw [if_neg (not_not_intro hst)] at h
  by_cases hcc : g.commitments_complete = true
  case neg => rw [if_pos hcc] at h; exact Except.noConfusion h
  rw [if_neg (not_not_intro hcc)] at h
  by_cases hpl : p = g.player_a ∨ p = g.player_b
  case neg => rw [if_pos hpl] at h; exact Except.noConfusion h
  rw [if_neg (not_not_intro hpl)] at h
  by_cases hs1 : s ≤ 1
  case pos => rw [if_pos hs1] at h; exact Except.noConfusion h
  rw [if_neg hs1] at h
  by_cases hs2 : s = U64_MAX
  case pos => rw [if_pos hs2] at h; exact Except.noConfusion h
  rw [if_neg hs2] at h
  by_cases hcm : generate_commitment c s =
      (if p = g.player_a then g.commitment_a else g.commitment_b)
  case neg => rw [if_pos hcm] at h; exact Except.noConfusion h
  rw [if_neg (not_not_intro hcm)] at h
  by_cases hpa : p = g.player_a
  · rw [if_pos hpa] at h
    by_cases hra : g.choice_a.isSome = true
    case pos => rw [if_pos hra] at h; exact Except.noConfusion h
    rw [if_neg hra] at h
    obtain ⟨f1, f2, f3, f4, hres, -⟩ := autoResolve_ok h
    have f1' : g'.choice_a = some c := f1
    have f2' : g'.secret_a = some s := f2
    have f3' : g'.choice_b = g.choice_b := f3
    have f4' : g'.secret_b = g.secret_b := f4
    refine ⟨hst, by omega, hs2, .inl ⟨hpa, Option.not_isSome_iff_eq_none.mp hra,
      f1', f2', f3', f4'⟩, ?_⟩
    intro hboth
    apply hres
    refine ⟨rfl, ?_⟩
    show g.choice_b.isSome = true
    rw [← f3']
    exact hboth.2
  · rw [if_neg hpa] at h
    by_cases hrb : g.choice_b.isSome = true
    case pos => rw [if_pos hrb] at h; exact Except.noConfusion h
    rw [if_neg hrb] at h
    obtain ⟨f1, f2, f3, f4, hres, -⟩ := autoResolve_ok h
    have f1' : g'.choice_a = g.choice_a := f1
    have f2' : g'.secret_a = g.secret_a := f2
    have f3' : g'.choice_b = some c := f3
    have f4' : g'.secret_b = some s := f4
    refine ⟨hst, by omega, hs2, .inr ⟨hpa, Option.not_isSome_iff_eq_none.mp hrb,
      f3', f4', f1', f2'⟩, ?_⟩
    intro hboth
    apply hres
    refine ⟨?_, rfl⟩
    show g.choice_a.isSome = true
    rw [← f1']
    exact hboth.1

theorem manual_ok {g : Game} {sl : Nat} {t : Int} {g' : Game} {ts : List Transfer}
    (h : resolve_game_manual g sl t = .ok (g', ts)) :
    g.choice_a.isSome = true ∧ g.choice_b.isSome = true ∧
    ¬ g.status = GameStatus.Resolved ∧
    g'.choice_a = g.choice_a ∧ g'.secret_a = g.secret_a ∧
    g'.choice_b = g.choice_b ∧ g'.secret_b = g.secret_b ∧
    g'.status = GameStatus.Resolved := by
  unfold resolve_game_manual at h
  by_cases hrdy : g.choice_a.isSome = true ∧ g.choice_b.isSome = true
  case neg => rw [if_pos hrdy] at h; exact Except.noConfusion h
  rw [if_neg (not_not_intro hrdy)] at h
  by_cases hres : g.status = GameStatus.Resolved
  case pos => rw [if_pos hres] at h; exact Except.noConfusion h
  rw [if_neg hres] at h
  obtain ⟨f1, f2, f3, f4, hr, -⟩ := autoResolve_ok h
  exact ⟨hrdy.1, hrdy.2, hres, f1, f2, f3, f4, hr hrdy⟩

theorem cancel_ok {g : Game} {now : Int} {g' : Game} {ts : List Transfer}
    (h : cancel_game g now = .ok (g', ts)) :
    ¬ g.status = GameStatus.Resolved ∧
    g' = { g with status := GameStatus.Cancelled } := by
  unfold cancel_game at h
  by_cases h1 : (3600 : Int) < now - g.created_at
  case neg => rw [if_pos h1] at h; exact Except.noConfusion h
  rw [if_neg (not_not_intro h1)] at h
  by_cases h2 : g.status = GameStatus.Resolved
  case pos => rw [if_pos h2] at h; exact Except.noConfusion h
  rw [if_neg h2] at h
  simp only [Except.ok.injEq, Prod.mk.injEq] at h
  exact ⟨h2, h.1.symm⟩

theorem good_create {gid pa hw b : Nat} {now : Int} {g : Game}
    (h : create_game gid pa hw b now = .ok g) : GoodGame g := by
  obtain ⟨h1, h2, h3, h4⟩ := create_ok h
  simp [GoodGame, h1, h2, h3, h4]

theorem good_join {g : Game} {pb : Nat} {g' : Game} (hg : GoodGame g)
    (h : join_game g pb = .ok g') : GoodGame g' := by
  obtain ⟨hst, e1, e2, e3, e4⟩ := join_ok h
  obtain ⟨g1, g2, g3, g4, g5⟩ := hg
  refine ⟨?_, ?_, ?_, ?_, ?_⟩
  · rw [e1, e3]; exact g1
  · rw [e2, e4]; exact g2
  · intro s1 hs; rw [e3] at hs; exact g3 s1 hs
  · intro s1 hs; rw [e4] at hs; exact g4 s1 hs
  · rw [e1, e2]
    intro ha hb
    have hcon := g5 ha hb
    rw [hst] at hcon
    exact absurd hcon (by decide)

theorem good_mk {g : Game} {p : Nat} {c : List Nat} {g' : Game} (hg : GoodGame g)
    (h : make_commitment g p c = .ok g') : GoodGame g' := by
  obtain ⟨hst, e1, e2, e3, e4⟩ := mk_ok h
  obtain ⟨g1, g2, g3, g4, g5⟩ := hg
  refine ⟨?_, ?_, ?_, ?_, ?_⟩
  · rw [e1, e3]; exact g1
  · rw [e2, e4]; exact g2
  · intro s1 hs; rw [e3] at hs; exact g3 s1 hs
  · intro s1 hs; rw [e4] at hs; exact g4 s1 hs
  · rw [e1, e2]
    intro ha hb
    have hcon := g5 ha hb
    rcases hst with hw | hw <;> rw [hw] at hcon <;> exact absurd hcon (by decide)

theorem good_reveal {g : Game} {p : Nat} {c : CoinSide} {s sl : Nat} {t : Int}
    {g' : Game} {ts : List Transfer} (hg : GoodGame g)
    (h : reveal_choice g p c s sl t = .ok (g', ts)) : GoodGame g' := by
  obtain ⟨hst, hs1, hs2, hcase, hres⟩ := reveal_ok h
  obtain ⟨g1, g2, g3, g4, g5⟩ := hg
  rcases hcase with ⟨hpa, hnone, f1, f2, f3, f4⟩ | ⟨hpa, hnone, f3, f4, f1, f2⟩
  · refine ⟨?_, ?_, ?_, ?_, fun ha hb => hres ⟨ha, hb⟩⟩
    · intro _; rw [f2]; rfl
    · rw [f3, f4]; exact g2
    · intro s2 hs; rw [f2] at hs; injection hs with hse; subst hse; exact ⟨hs1, hs2⟩
    · intro s2 hs; rw [f4] at hs; exact g4 s2 hs
  · refine ⟨?_, ?_, ?_, ?_, fun ha hb => hres ⟨ha, hb⟩⟩
    · rw [f1, f2]; exact g1
    · intro _; rw [f4]; rfl
    · intro s2 hs; rw [f2] at hs; exact g3 s2 hs
    · intro s2 hs; rw [f4] at hs; injection hs with hse; subst hse; exact ⟨hs1, hs2⟩

theorem good_manual {g : Game} {sl : Nat} {t : Int} {g' : Game} {ts : List Transfer}
    (hg : GoodGame g) (h : resolve_game_manual g sl t = .ok (g', ts)) : GoodGame g' := by
  obtain ⟨ha, hb, hnr, f1, f2, f3, f4, hst⟩ := manual_ok h
  obtain ⟨g1, g2, g3, g4, g5⟩ := hg
  refine ⟨?_, ?_, ?_, ?_, fun _ _ => hst⟩
  · rw [f1, f2]; exact g1
  · rw [f3, f4]; exact g2
  · intro s1 hs; rw [f2] at hs; exact g3 s1 hs
  · intro s1 hs; rw [f4] at hs; exact g4 s1 hs

theorem good_cancel {g : Game} {now : Int} {g' : Game} {ts : List Transfer}
    (hg : GoodGame g) (h : cancel_game g now = .ok (g', ts)) : GoodGame g' := by
  obtain ⟨hnr, he⟩ := cancel_ok h
  subst he
  obtain ⟨g1, g2, g3, g4, g5⟩ := hg
  exact ⟨g1, g2, g3, g4, fun ha hb => absurd (g5 ha hb) hnr⟩

theorem reach_good {g : Game} (h : Reach g) : GoodGame g := by
  induction h with
  | created gid pa hw b now g h => exact good_create h
  | joined g pb g' hr h ih => exact good_join ih h
  | committed g p c g' hr h ih => exact good_mk ih h
  | revealed g p c s sl now g' ts hr h ih => exact good_reveal ih h
  | resolvedManually g sl now g' ts hr h ih => exact good_manual ih h
  | cancelled g now g' ts hr h ih => exact good_cancel ih h

/-! ## Step facts for the concrete execution -/

theorem step_create : create_game 7 1 9 10000000 0 = .ok exG0 := by decide

theorem step_join : join_game exG0 2 = .ok exG1 := by decide

theorem step_commitA : make_commitment exG1 1 exCommitA = .ok exG2 := by decide

theorem step_commitB : make_commitment exG2 2 exCommitB = .ok exG3 := by decide

theorem step_revealA : reveal_choice exG3 1 .Heads 5 exSlot exTime = .ok (exG4, []) := by decide

theorem step_revealB :
    reveal_choice exG4 2 .Tails 6 exSlot exTime = .ok (exG5, exTransfers) := by decide

theorem step_cancel : cancel_game exG4 4000 = .ok (exCancelled, exCancelTransfers) := by decide

theorem reach_exG4 : Reach exG4 :=
  Reach.revealed exG3 1 .Heads 5 exSlot exTime exG4 []
    (Reach.committed exG2 2 exCommitB exG3
      (Reach.committed exG1 1 exCommitA exG2
        (Reach.joined exG0 2 exG1
          (Reach.created 7 1 9 10000000 0 exG0 step_create)
          step_join)
        step_commitA)
      step_commitB)
    step_revealA

theorem reach_exG5 : Reach exG5 :=
  Reach.revealed exG4 2 .Tails 6 exSlot exTime exG5 exTransfers reach_exG4 step_revealB

theorem reach_exCancelled : Reach exCancelled :=
  Reach.cancelled exG4 4000 exCancelled exCancelTransfers reach_exG4 step_cancel

/-! ## Payout arithmetic lemmas -/

theorem autoResolve_isOk (g : Game) (sl : Nat) (t : Int) :
    ∃ g' ts, autoResolve g sl t = .ok (g', ts) := by
  unfold autoResolve
  split
  · exact ⟨_, _, rfl⟩
  · exact ⟨_, _, rfl⟩

theorem house_fee_le (bet : Nat) :
    bet * 2 * HOUSE_FEE_PERCENTAGE / 10000 ≤ bet * 2 :=
  mulDiv_le (bet * 2) HOUSE_FEE_PERCENTAGE 10000 (by norm_num [HOUSE_FEE_PERCENTAGE])
    (by norm_num)

theorem cancel_fee_le (bet : Nat) :
    bet * CANCELLATION_FEE_PERCENTAGE / 10000 ≤ bet :=
  mulDiv_le bet CANCELLATION_FEE_PERCENTAGE 10000
    (by norm_num [CANCELLATION_FEE_PERCENTAGE]) (by norm_num)

theorem resolution_payouts_eq {bet : Nat} (hbet : bet ≤ MAX_BET_AMOUNT) :
    resolution_payouts bet =
      (bet * 2, bet * 2 * HOUSE_FEE_PERCENTAGE / 10000,
       bet * 2 - bet * 2 * HOUSE_FEE_PERCENTAGE / 10000) := by
  have hpot : bet * 2 < U64_MOD := by
    unfold MAX_BET_AMOUNT at hbet; unfold U64_MOD; omega
  have hmul : bet * 2 * HOUSE_FEE_PERCENTAGE < U64_MOD := by
    unfold MAX_BET_AMOUNT at hbet; unfold HOUSE_FEE_PERCENTAGE; unfold U64_MOD; omega
  simp only [resolution_payouts]
  rw [wrap64_eq_of_lt hpot, wrap64_eq_of_lt hmul, sub64_eq (house_fee_le bet) hpot]

theorem cancel_fees_eq {bet : Nat} (hbet : bet ≤ MAX_BET_AMOUNT) :
    cancel_fees bet =
      (bet * CANCELLATION_FEE_PERCENTAGE / 10000,
       bet - bet * CANCELLATION_FEE_PERCENTAGE / 10000) := by
  have hbm : bet < U64_MOD := by
    unfold MAX_BET_AMOUNT at hbet; unfold U64_MOD; omega
  have hmul : bet * CANCELLATION_FEE_PERCENTAGE < U64_MOD := by
    unfold MAX_BET_AMOUNT at hbet; unfold CANCELLATION_FEE_PERCENTAGE; unfold U64_MOD; omega
  simp only [cancel_fees]
  rw [wrap64_eq_of_lt hmul, sub64_eq (cancel_fee_le bet) hbm]

/-! ## The claims -/

/-- C10: the coin-flip computation is symmetric in the two players' secrets:
the secrets enter only through their wrapping product, so swapping the A and
B roles cannot change the outcome, for every slot and timestamp. -/
theorem C10_coin_flip_symmetric_in_secrets (sa sb sl : Nat) (t : Int) :
    generate_coin_flip sa sb sl t = generate_coin_flip sb sa sl t := by
  unfold generate_coin_flip coin_entropy_data
  rw [Nat.mul_comm sb sa]

/-- C10 witness: the symmetry at secrets 5 and 6, slot 10, time 100. -/
theorem C10_witness :
    generate_coin_flip 5 6 10 100 = generate_coin_flip 6 5 10 100 :=
  C10_coin_flip_symmetric_in_secrets 5 6 10 100

/-- C4: when both players revealed the same choice, `determine_winner` is
the dedicated tie-break selection: a function of the two secrets and the
slot alone, deterministic, the same whatever the computed coin outcome; and
the tie-break hash input can never coincide with a coin-flip hash input
(16 bytes against 24), giving domain separation of the two hashes. -/
theorem C4_tiebreak_independent_of_coin (c r1 r2 : CoinSide) (sa sb sl pa pb : Nat) :
    determine_winner c c r1 sa sb sl pa pb = tiebreak_winner sa sb sl pa pb ∧
    determine_winner c c r1 sa sb sl pa pb = determine_winner c c r2 sa sb sl pa pb ∧
    (∀ (sa2 sb2 sl2 : Nat) (t2 : Int),
      ¬ tiebreaker_data sa sb sl = coin_entropy_data sa2 sb2 sl2 t2) := by
  have h1 : ∀ r : CoinSide,
      determine_winner c c r sa sb sl pa pb = tiebreak_winner sa sb sl pa pb := by
    intro r
    cases c <;> cases r <;> rfl
  refine ⟨h1 r1, (h1 r1).trans (h1 r2).symm, ?_⟩
  intro sa2 sb2 sl2 t2 hcontra
  have hlen := congrArg List.length hcontra
  simp [tiebreaker_data, coin_entropy_data, leBytes8] at hlen

/-- C4 witness: the tie at choice Heads, secrets 5 and 6, slot 10. -/
theorem C4_witness :
    determine_winner .Heads .Heads .Heads 5 6 10 1 2 = tiebreak_winner 5 6 10 1 2 ∧
    determine_winner .Heads .Heads .Heads 5 6 10 1 2 =
      determine_winner .Heads .Heads .Tails 5 6 10 1 2 ∧
    ¬ tiebreaker_data 5 6 10 = coin_entropy_data 5 6 10 100 :=
  ⟨(C4_tiebreak_independent_of_coin .Heads .Heads .Tails 5 6 10 1 2).1,
   (C4_tiebreak_independent_of_coin .Heads .Heads .Tails 5 6 10 1 2).2.1,
   (C4_tiebreak_independent_of_coin .Heads .Heads .Tails 5 6 10 1 2).2.2 5 6 10 100⟩

/-- C3: with differing revealed choices, exactly one of the two choices
equals the coin outcome, the winner is exactly the player whose choice
matches, and the winner is always one of the two participants — for all
secrets, slots and outcomes. -/
theorem C3_differing_choices_unique_winner (ca cb r : CoinSide) (sa sb sl pa pb : Nat)
    (hne : ¬ ca = cb) :
    (ca = r → determine_winner ca cb r sa sb sl pa pb = pa) ∧
    (cb = r → determine_winner ca cb r sa sb sl pa pb = pb) ∧
    (ca = r ∨ cb = r) ∧ ¬ (ca = r ∧ cb = r) ∧
    (determine_winner ca cb r sa sb sl pa pb = pa ∨
      determine_winner ca cb r sa sb sl pa pb = pb) := by
  cases ca <;> cases cb <;> cases r <;> first
    | exact absurd rfl hne
    | exact ⟨fun _ => rfl, fun h => absurd h (by decide), Or.inl rfl, by decide, Or.inl rfl⟩
    | exact ⟨fun h => absurd h (by decide), fun _ => rfl, Or.inr rfl, by decide, Or.inr rfl⟩

/-- C3 witness: Heads against Tails with the coin landing Heads selects
player A. -/
theorem C3_witness :
    determine_winner .Heads .Tails .Heads 5 6 10 1 2 = 1 :=
  (C3_differing_choices_unique_winner .Heads .Tails .Heads 5 6 10 1 2 (by decide)).1 rfl

/-- C7: in every reachable game state, if both players' revelations are
recorded then the game is `Resolved` — the reveal call that completes the
pair resolves within the same call, so no state with both reveals present
but the game unresolved is ever observable between operations. -/
theorem C7_both_revealed_implies_resolved (g : Game) (hR : Reach g)
    (ha : g.choice_a.isSome = true) (hb : g.choice_b.isSome = true) :
    g.status = GameStatus.Resolved :=
  (reach_good hR).2.2.2.2 ha hb

/-- C7 witness: the fully played concrete game is reachable, has both
revelations, and is `Resolved`. -/
theorem C7_witness : exG5.status = GameStatus.Resolved :=
  C7_both_revealed_implies_resolved exG5 reach_exG5 rfl rfl

/-- C9: a reveal whose phase, commitment-completeness and participation
preconditions hold but whose secret is 0, 1 or `u64::MAX` always fails with
`WeakSecret` and records nothing; and no reachable state stores a weak
secret for either player. -/
theorem C9_weak_secrets_rejected :
    (∀ (g : Game) (p : Nat) (c : CoinSide) (s slot : Nat) (now : Int),
        (g.status = GameStatus.CommitmentsReady ∨ g.status = GameStatus.RevealingPhase) →
        g.commitments_complete = true →
        (p = g.player_a ∨ p = g.player_b) →
        (s = 0 ∨ s = 1 ∨ s = U64_MAX) →
        reveal_choice g p c s slot now = .error .WeakSecret) ∧
    (∀ g : Game, Reach g → ∀ s : Nat,
        (g.secret_a = some s ∨ g.secret_b = some s) → 1 < s ∧ ¬ s = U64_MAX) := by
  constructor
  · intro g p c s slot now hst hcc hpl hw
    unfold reveal_choice
    rw [if_neg (not_not_intro hst), if_neg (not_not_intro hcc), if_neg (not_not_intro hpl)]
    rcases hw with h0 | h1 | hmax
    · rw [if_pos (by omega)]
    · rw [if_pos (by omega)]
    · have hgt : ¬ s ≤ 1 := by subst hmax; unfold U64_MAX; omega
      rw [if_neg hgt, if_pos hmax]
  · intro g hR s hs
    rcases hs with h | h
    · exact (reach_good hR).2.2.1 s h
    · exact (reach_good hR).2.2.2.1 s h

/-- C9 witness: revealing with secret 0 in the concrete commitments-ready
game fails with `WeakSecret`; the resolved concrete game stores only strong
secrets. -/
theorem C9_witness :
    reveal_choice exG3 1 .Heads 0 10 100 = .error .WeakSecret ∧
    (1 < 5 ∧ ¬ (5 : Nat) = U64_MAX) :=
  ⟨C9_weak_secrets_rejected.1 exG3 1 .Heads 0 10 100 (Or.inl rfl) rfl (Or.inl rfl)
      (Or.inl rfl),
   C9_weak_secrets_rejected.2 exG5 reach_exG5 5 (Or.inl rfl)⟩

/-- C1 (code defect): the claim says a game already `Cancelled` sees no
further refunds or fees.  In the code, `cancel_game`'s only terminal-status
guard is `status != Resolved`; on the reachable two-player game below,
already `Cancelled` by a first cancellation, a second `cancel_game` call
succeeds and issues the full refund and fee transfers again, draining the
escrow a second time. -/
theorem C1_cancelled_game_disburses_again :
    Reach exCancelled ∧ exCancelled.status = GameStatus.Cancelled ∧
    ¬ exCancelled.player_b = PUBKEY_DEFAULT ∧
    cancel_game exCancelled 4000 = .ok (exCancelled, exCancelTransfers) ∧
    ¬ exCancelTransfers = [] :=
  ⟨reach_exCancelled, rfl, by decide, by decide, by decide⟩

/-- C6: `cancel_game` strictly before the minimum elapsed window always
fails with the timing error and changes nothing; past the window, with only
the creator funded (status still `WaitingForPlayer`) and the 200-bps fee,
it refunds the creator `bet − floor(bet·200/10000)`, pays the house
`floor(bet·200/10000)` exactly once, and refund plus fee is exactly the
bet. -/
theorem C6_cancel_timing_and_lone_creator_refund :
    (∀ (g : Game) (now : Int), now - g.created_at ≤ 3600 →
        cancel_game g now = .error .TooEarlyToCancel) ∧
    (∀ (g : Game) (now : Int), 3600 < now - g.created_at →
        g.status = GameStatus.WaitingForPlayer →
        g.bet_amount ≤ MAX_BET_AMOUNT →
        cancel_game g now = .ok ({ g with status := GameStatus.Cancelled },
          [(g.player_a, g.bet_amount - g.bet_amount * CANCELLATION_FEE_PERCENTAGE / 10000),
           (g.house_wallet, g.bet_amount * CANCELLATION_FEE_PERCENTAGE / 10000)]) ∧
        g.bet_amount - g.bet_amount * CANCELLATION_FEE_PERCENTAGE / 10000 +
          g.bet_amount * CANCELLATION_FEE_PERCENTAGE / 10000 = g.bet_amount) := by
  constructor
  · intro g now hle
    unfold cancel_game
    rw [if_pos (show ¬ (3600 : Int) < now - g.created_at by omega)]
  · intro g now hgt hw hbet
    refine ⟨?_, Nat.sub_add_cancel (cancel_fee_le g.bet_amount)⟩
    unfold cancel_game
    rw [if_neg (not_not_intro hgt),
        if_neg (show ¬ g.status = GameStatus.Resolved by rw [hw]; decide)]
    simp only [cancel_transfers]
    rw [if_pos hw, cancel_fees_eq hbet]

/-- C6 witness: cancelling the freshly created concrete game at time 100
fails with the timing error; at time 4000 the lone creator is refunded
9800000 of the 10000000 bet, the house receives 200000 once, and the two
amounts sum to the bet. -/
theorem C6_witness :
    cancel_game exG0 100 = .error .TooEarlyToCancel ∧
    cancel_game exG0 4000 = .ok ({ exG0 with status := GameStatus.Cancelled },
      [(exG0.player_a,
        exG0.bet_amount - exG0.bet_amount * CANCELLATION_FEE_PERCENTAGE / 10000),
       (exG0.house_wallet, exG0.bet_amount * CANCELLATION_FEE_PERCENTAGE / 10000)]) ∧
    exG0.bet_amount - exG0.bet_amount * CANCELLATION_FEE_PERCENTAGE / 10000 +
      exG0.bet_amount * CANCELLATION_FEE_PERCENTAGE / 10000 = exG0.bet_amount :=
  ⟨C6_cancel_timing_and_lone_creator_refund.1 exG0 100 (by decide),
   C6_cancel_timing_and_lone_creator_refund.2 exG0 4000 (by decide) rfl (by decide)⟩

/-- C5: for a participant whose phase, participation, not-yet-revealed and
secret-strength preconditions all hold, the reveal records the revelation
exactly when the recomputed commitment digest equals the one stored for
that player; any mismatch fails with the integrity error
`InvalidCommitment`, recording nothing. -/
theorem C5_reveal_iff_commitment_matches (g : Game) (p : Nat) (c : CoinSide)
    (s slot : Nat) (now : Int)
    (hst : g.status = GameStatus.CommitmentsReady ∨ g.status = GameStatus.RevealingPhase)
    (hcc : g.commitments_complete = true)
    (hpl : p = g.player_a ∨ p = g.player_b)
    (hnr : (if p = g.player_a then g.choice_a else g.choice_b) = none)
    (hs1 : 1 < s) (hs2 : ¬ s = U64_MAX) :
    ((∃ pr : Game × List Transfer, reveal_choice g p c s slot now = .ok pr ∧
        (if p = g.player_a then pr.1.choice_a = some c ∧ pr.1.secret_a = some s
         else pr.1.choice_b = some c ∧ pr.1.secret_b = some s)) ↔
      generate_commitment c s =
        (if p = g.player_a then g.commitment_a else g.commitment_b)) ∧
    (¬ generate_commitment c s =
        (if p = g.player_a then g.commitment_a else g.commitment_b) →
      reveal_choice g p c s slot now = .error .InvalidCommitment) := by
  have herr : ¬ generate_commitment c s =
      (if p = g.player_a then g.commitment_a else g.commitment_b) →
      reveal_choice g p c s slot now = .error .InvalidCommitment := by
    intro hne
    unfold reveal_choice
    rw [if_neg (not_not_intro hst), if_neg (not_not_intro hcc), if_neg (not_not_intro hpl),
        if_neg (show ¬ s ≤ 1 by omega), if_neg hs2, if_pos hne]
  refine ⟨⟨?_, ?_⟩, herr⟩
  · rintro ⟨pr, hok, -⟩
    by_contra hne
    rw [herr hne] at hok
    exact Except.noConfusion hok
  · intro hmatch
    unfold reveal_choice
    rw [if_neg (not_not_intro hst), if_neg (not_not_intro hcc), if_neg (not_not_intro hpl),
        if_neg (show ¬ s ≤ 1 by omega), if_neg hs2, if_neg (not_not_intro hmatch)]
    by_cases hpa : p = g.player_a
    · rw [if_pos hpa] at hnr ⊢
      rw [if_neg (show ¬ g.choice_a.isSome = true by rw [hnr]; decide)]
      obtain ⟨g2, ts2, hAR⟩ := autoResolve_isOk
        { g with choice_a := some c, secret_a := some s,
                 status := GameStatus.RevealingPhase } slot now
      refine ⟨(g2, ts2), hAR, ?_⟩
      rw [if_pos hpa]
      obtain ⟨f1, f2, -, -, -, -⟩ := autoResolve_ok hAR
      exact ⟨f1, f2⟩
    · rw [if_neg hpa] at hnr ⊢
      rw [if_neg (show ¬ g.choice_b.isSome = true by rw [hnr]; decide)]
      obtain ⟨g2, ts2, hAR⟩ := autoResolve_isOk
        { g with choice_b := some c, secret_b := some s,
                 status := GameStatus.RevealingPhase } slot now
      refine ⟨(g2, ts2), hAR, ?_⟩
      rw [if_neg hpa]
      obtain ⟨-, -, f3, f4, -, -⟩ := autoResolve_ok hAR
      exact ⟨f3, f4⟩

/-- C5 witness: in the concrete commitments-ready game, player 1's reveal
of (Heads, 5) matches the stored digest and is recorded. -/
theorem C5_witness :
    ∃ pr : Game × List Transfer, reveal_choice exG3 1 .Heads 5 10 100 = .ok pr ∧
      (if (1 : Nat) = exG3.player_a then pr.1.choice_a = some .Heads ∧ pr.1.secret_a = some 5
       else pr.1.choice_b = some .Heads ∧ pr.1.secret_b = some 5) :=
  (C5_reveal_iff_commitment_matches exG3 1 .Heads 5 10 100 (Or.inl rfl) rfl (Or.inl rfl)
      rfl (by omega) (by decide)).1.mpr rfl

/-- C2: for every game holding two revelations, not yet resolved, with a
bet within the program's bound, manual resolution computes
`pot = bet × 2`, `fee = floor(pot × 700 / 10000)`,
`payout = pot − fee`, pays the payout to the selected winner and the fee to
the house wallet, and `payout + fee = pot` exactly, with no residue. -/
theorem C2_resolution_payouts_exact (g : Game) (ca cb : CoinSide) (sa sb slot : Nat)
    (now : Int)
    (hca : g.choice_a = some ca) (hcb : g.choice_b = some cb)
    (hsa : g.secret_a = some sa) (hsb : g.secret_b = some sb)
    (hst : ¬ g.status = GameStatus.Resolved)
    (hbet : g.bet_amount ≤ MAX_BET_AMOUNT) :
    resolve_game_manual g slot now = .ok
      ({ g with
          coin_result := some (generate_coin_flip sa sb slot now)
          winner := some (determine_winner ca cb (generate_coin_flip sa sb slot now)
                            sa sb slot g.player_a g.player_b)
          house_fee := g.bet_amount * 2 * HOUSE_FEE_PERCENTAGE / 10000
          status := GameStatus.Resolved
          resolved_at := some now },
       [(if determine_winner ca cb (generate_coin_flip sa sb slot now) sa sb slot
             g.player_a g.player_b = g.player_a
         then g.player_a else g.player_b,
         g.bet_amount * 2 - g.bet_amount * 2 * HOUSE_FEE_PERCENTAGE / 10000),
        (g.house_wallet, g.bet_amount * 2 * HOUSE_FEE_PERCENTAGE / 10000)]) ∧
    g.bet_amount * 2 - g.bet_amount * 2 * HOUSE_FEE_PERCENTAGE / 10000 +
      g.bet_amount * 2 * HOUSE_FEE_PERCENTAGE / 10000 = g.bet_amount * 2 := by
  refine ⟨?_, Nat.sub_add_cancel (house_fee_le g.bet_amount)⟩
  unfold resolve_game_manual
  rw [if_neg (not_not_intro ⟨by rw [hca]; rfl, by rw [hcb]; rfl⟩), if_neg hst]
  unfold autoResolve
  rw [if_pos ⟨by rw [hca]; rfl, by rw [hcb]; rfl⟩]
  simp only [hca, hcb, hsa, hsb, Option.getD_some, resolution_payouts_eq hbet]

/-- C2 witness: the concrete both-revealed game with bet 10000000 resolves
with pot 20000000, house fee 1400000 and winner payout 18600000, summing
exactly to the pot. -/
theorem C2_witness :
    resolve_game_manual exBothRevealed 10 100 = .ok
      ({ exBothRevealed with
          coin_result := some (generate_coin_flip 5 6 10 100)
          winner := some (determine_winner .Heads .Tails (generate_coin_flip 5 6 10 100)
                            5 6 10 exBothRevealed.player_a exBothRevealed.player_b)
          house_fee := exBothRevealed.bet_amount * 2 * HOUSE_FEE_PERCENTAGE / 10000
          status := GameStatus.Resolved
          resolved_at := some 100 },
       [(if determine_winner .Heads .Tails (generate_coin_flip 5 6 10 100) 5 6 10
             exBothRevealed.player_a exBothRevealed.player_b = exBothRevealed.player_a
         then exBothRevealed.player_a else exBothRevealed.player_b,
         exBothRevealed.bet_amount * 2 -
           exBothRevealed.bet_amount * 2 * HOUSE_FEE_PERCENTAGE / 10000),
        (exBothRevealed.house_wallet,
         exBothRevealed.bet_amount * 2 * HOUSE_FEE_PERCENTAGE / 10000)]) ∧
    exBothRevealed.bet_amount * 2 -
        exBothRevealed.bet_amount * 2 * HOUSE_FEE_PERCENTAGE / 10000 +
      exBothRevealed.bet_amount * 2 * HOUSE_FEE_PERCENTAGE / 10000 =
        exBothRevealed.bet_amount * 2 ∧
    exBothRevealed.bet_amount * 2 = 20000000 ∧
    exBothRevealed.bet_amount * 2 * HOUSE_FEE_PERCENTAGE / 10000 = 1400000 ∧
    exBothRevealed.bet_amount * 2 -
      exBothRevealed.bet_amount * 2 * HOUSE_FEE_PERCENTAGE / 10000 = 18600000 := by
  have h := C2_resolution_payouts_exact exBothRevealed .Heads .Tails 5 6 10 100
    rfl rfl rfl rfl (by decide) (by decide)
  exact ⟨h.1, h.2, by decide, by decide, by decide⟩

/-- C8 (modelled from the spec: the build profile that decides whether the
source's plain `*`, `-`, `/` operators trap on overflow is not among the
sources): every arithmetic operation of the payout, fee, refund and
elapsed-time computations, modelled as overflow-checked, yields its exact
mathematical value whenever representable — in particular for every bet
within the program's bound, where it agrees with the program's own payout
and fee computations — and aborts with no result on any overflow or
underflow, so no value ever wraps. -/
theorem C8_checked_arithmetic_never_wraps :
    (∀ bet : Nat, bet * 2 < U64_MOD → bet * 2 * HOUSE_FEE_PERCENTAGE < U64_MOD →
        payoutsChecked bet = some (bet * 2, bet * 2 * HOUSE_FEE_PERCENTAGE / 10000,
          bet * 2 - bet * 2 * HOUSE_FEE_PERCENTAGE / 10000)) ∧
    (∀ bet : Nat, U64_MOD ≤ bet * 2 ∨ U64_MOD ≤ bet * 2 * HOUSE_FEE_PERCENTAGE →
        payoutsChecked bet = none) ∧
    (∀ bet : Nat, bet ≤ MAX_BET_AMOUNT →
        payoutsChecked bet = some (resolution_payouts bet)) ∧
    (∀ bet : Nat, bet * CANCELLATION_FEE_PERCENTAGE < U64_MOD →
        cancelFeesChecked bet = some (bet * CANCELLATION_FEE_PERCENTAGE / 10000,
          bet - bet * CANCELLATION_FEE_PERCENTAGE / 10000)) ∧
    (∀ bet : Nat, U64_MOD ≤ bet * CANCELLATION_FEE_PERCENTAGE →
        cancelFeesChecked bet = none) ∧
    (∀ bet : Nat, bet ≤ MAX_BET_AMOUNT → cancelFeesChecked bet = some (cancel_fees bet)) ∧
    (∀ now created : Int, -(9223372036854775808 : Int) ≤ now - created →
        now - created < 9223372036854775808 →
        elapsedChecked now created = some (now - created)) ∧
    (∀ now created : Int, now - created < -(9223372036854775808 : Int) ∨
        (9223372036854775808 : Int) ≤ now - created →
        elapsedChecked now created = none) := by
  have hmain : ∀ bet : Nat, bet * 2 < U64_MOD → bet * 2 * HOUSE_FEE_PERCENTAGE < U64_MOD →
      payoutsChecked bet = some (bet * 2, bet * 2 * HOUSE_FEE_PERCENTAGE / 10000,
        bet * 2 - bet * 2 * HOUSE_FEE_PERCENTAGE / 10000) := by
    intro bet h1 h2
    simp [payoutsChecked, checkedMul64, checkedSub64, h1, h2, house_fee_le bet]
  have hcf : ∀ bet : Nat, bet * CANCELLATION_FEE_PERCENTAGE < U64_MOD →
      cancelFeesChecked bet = some (bet * CANCELLATION_FEE_PERCENTAGE / 10000,
        bet - bet * CANCELLATION_FEE_PERCENTAGE / 10000) := by
    intro bet h1
    simp [cancelFeesChecked, checkedMul64, checkedSub64, h1, cancel_fee_le bet]
  refine ⟨hmain, ?_, ?_, hcf, ?_, ?_, ?_, ?_⟩
  · intro bet h
    rcases h with h | h
    · simp [payoutsChecked, checkedMul64, Nat.not_lt.mpr h]
    · by_cases h1 : bet * 2 < U64_MOD
      · simp [payoutsChecked, checkedMul64, h1, Nat.not_lt.mpr h]
      · simp [payoutsChecked, checkedMul64, h1]
  · intro bet hbet
    have h1 : bet * 2 < U64_MOD := by
      unfold MAX_BET_AMOUNT at hbet; unfold U64_MOD; omega
    have h2 : bet * 2 * HOUSE_FEE_PERCENTAGE < U64_MOD := by
      unfold MAX_BET_AMOUNT at hbet; unfold HOUSE_FEE_PERCENTAGE; unfold U64_MOD; omega
    rw [hmain bet h1 h2, resolution_payouts_eq hbet]
  · intro bet h
    simp [cancelFeesChecked, checkedMul64, Nat.not_lt.mpr h]
  · intro bet hbet
    have h1 : bet * CANCELLATION_FEE_PERCENTAGE < U64_MOD := by
      unfold MAX_BET_AMOUNT at hbet; unfold CANCELLATION_FEE_PERCENTAGE; unfold U64_MOD
      omega
    rw [hcf bet h1, cancel_fees_eq hbet]
  · intro now created h1 h2
    simp [elapsedChecked, checkedSubI64, h1, h2]
  · intro now created h
    simp only [elapsedChecked, checkedSubI64, ite_eq_right_iff]
    intro hc
    rcases h with h | h <;> omega

/-- C8 witness: at the example bet 10000000 every checked operation
succeeds with the exact pot 20000000, fee 1400000 and payout 18600000; at
bet `2^63` the doubling overflows and the computation aborts with no
result. -/
theorem C8_witness :
    payoutsChecked 10000000 = some (20000000, 1400000, 18600000) ∧
    payoutsChecked 9223372036854775808 = none ∧
    cancelFeesChecked 10000000 = some (200000, 9800000) ∧
    elapsedChecked 4000 0 = some 4000 :=
  ⟨(C8_checked_arithmetic_never_wraps.1 10000000 (by decide) (by decide)).trans (by decide),
   C8_checked_arithmetic_never_wraps.2.1 9223372036854775808 (Or.inl (by decide)),
   (C8_checked_arithmetic_never_wraps.2.2.2.1 10000000 (by decide)).trans (by decide),
   (C8_checked_arithmetic_never_wraps.2.2.2.2.2.2.1 4000 0 (by decide) (by decide)).trans
     (by decide)⟩
